import Mathlib

/-!
Verification development for the Super Receptionist backend
(`src/app.py`, `src/database.py`).

The MongoDB document store is embedded shallowly: each collection is a
list of documents in insertion order, BSON ObjectIds are modelled as
naturals drawn from a per-database counter `nextId`, and `datetime.utcnow()`
is modelled by a logical clock `clock` that advances every time the code
reads the wall clock (so successive timestamps are strictly increasing, the
ordering invariant the code relies on).  `db is None` guards in
`database.py` are modelled by the `connected` flag.  Fallible Python code
paths (raised exceptions caught by handlers) are modelled by explicit
branching.
-/

namespace SuperReceptionist

/-- Python truthiness of an optional string (`None` and `""` are falsy):
used for `if not AI_API_KEY`, `if not new_message`, `message.conversation_id or "default"`. -/
def pyTruthy : Option String → Bool
  | none => false
  | some str => str != ""

/-- One document of the `chat_history` collection (`chat_doc` in
`database.save_chat_message`).  `timestamp` is optional because
`delete_messages_after` explicitly guards against a document lacking it. -/
structure Message where
  mid : Nat
  conversation_id : String
  role : String
  message : String
  response : Option String
  timestamp : Option Nat
  updated_at : Option Nat
deriving DecidableEq

/-- One menu item as posted through the `MenuItem` pydantic model in
`app.py`.  The float `price` field is carried opaquely (no arithmetic is
ever performed on it), so it is modelled by an integer payload. -/
structure MenuItem where
  name : String
  description : Option String
  price : Option Int
  category : Option String
deriving DecidableEq

/-- A cake design as posted through the `CakeDesign` pydantic model. -/
structure CakeDesign where
  design_id : String
  name : String
  description : String
  image_url : Option String
deriving DecidableEq

/-- A stored cake-design document (`design_doc` in
`database.save_cake_designs`), possibly carrying decoded image bytes. -/
structure CakeDesignDoc where
  design_id : String
  name : String
  description : String
  image_url : Option String
  image_data : Option (List Nat)
  created_at : Nat
  updated_at : Nat
deriving DecidableEq

/-- The database state: the collections touched by the modelled
operations, the ObjectId counter and the logical wall clock. -/
structure DB where
  connected : Bool
  chat : List Message
  menu : List (Nat × MenuItem)
  designs : List CakeDesignDoc
  clock : Nat
  nextId : Nat
deriving DecidableEq

/-- Model of Python's `str.lower()` as applied to `AI_PROVIDER` (character
wise lowering; `String.toLower` itself is defined by well-founded recursion
and does not reduce in the kernel). -/
def strLower (s : String) : String := String.mk (s.data.map Char.toLower)

/-- Comparison of optional timestamps as MongoDB's ascending sort orders
them: a document missing the field sorts before every dated one. -/
def tsLe : Option Nat → Option Nat → Bool
  | none, _ => true
  | some _, none => false
  | some a, some b => a ≤ b

/-- Strict version of `tsLe`. -/
def tsLt (a b : Option Nat) : Bool := !(tsLe b a)

/-- The MongoDB query `{'timestamp': {'$gt': t}}`: a document missing the
field never matches `$gt`. -/
def tsGtB : Option Nat → Nat → Bool
  | none, _ => false
  | some a, t => t < a

/-- Stable insertion into a `timestamp`-sorted list (helper for the model
of `cursor.sort('timestamp', 1)`). -/
def insertTs (m : Message) : List Message → List Message
  | [] => [m]
  | y :: ys => if tsLe m.timestamp y.timestamp then m :: y :: ys else y :: insertTs m ys

/-- The model of `cursor.sort('timestamp', 1)`: stable sort of the
matching documents by ascending timestamp. -/
def sortTs : List Message → List Message
  | [] => []
  | x :: xs => insertTs x (sortTs xs)

/-- The `chat_doc` built by `database.save_chat_message`: fresh ObjectId,
fresh timestamp, no update stamp. -/
def chatDoc (s : DB) (conversation_id role message : String)
    (response : Option String) : Message :=
  { mid := s.nextId, conversation_id := conversation_id, role := role,
    message := message, response := response,
    timestamp := some s.clock, updated_at := none }

/-- `database.save_chat_message`: insert one chat document with a fresh
`timestamp`; returns `False` (and stores nothing) when not connected. -/
def save_chat_message (s : DB) (conversation_id role message : String)
    (response : Option String) : DB × Bool :=
  if !s.connected then (s, false) else
  ({ s with chat := s.chat ++ [chatDoc s conversation_id role message response],
            clock := s.clock + 1, nextId := s.nextId + 1 }, true)

/-- The documents of one conversation, in insertion order (the raw
collection contents restricted to a `conversation_id`). -/
def convMsgs (s : DB) (conversation_id : String) : List Message :=
  s.chat.filter (fun m => m.conversation_id == conversation_id)

/-- `database.get_chat_history`: all documents of the conversation sorted
by ascending timestamp, truncated by `cursor.to_list(length=limit)`; the
returned dicts carry the stored fields unchanged, so the model returns the
documents themselves. -/
def get_chat_history (s : DB) (conversation_id : String) (limit : Nat) : List Message :=
  if !s.connected then [] else
  (sortTs (convMsgs s conversation_id)).take limit

/-- `database.delete_conversation`: `delete_many({'conversation_id': cid})`,
reporting whether anything was deleted. -/
def delete_conversation (s : DB) (conversation_id : String) : DB × Bool :=
  if !s.connected then (s, false) else
  let remaining := s.chat.filter (fun m => !(m.conversation_id == conversation_id))
  ({ s with chat := remaining }, decide (remaining.length < s.chat.length))

/-- MongoDB `update_one` on the chat collection: rewrite the first (in a
real collection, the unique) document whose `_id` matches, reporting
whether the update actually modified it (`modified_count > 0`). -/
def dbUpdateOne (mid : Nat) (f : Message → Message) :
    List Message → List Message × Bool
  | [] => ([], false)
  | x :: xs =>
    if x.mid == mid then (f x :: xs, decide (¬ f x = x))
    else
      let r := dbUpdateOne mid f xs
      (x :: r.1, r.2)

/-- The per-document effect of the `$set` in `update_chat_message`,
restricted to the matching id: replace `message`, stamp `updated_at`. -/
def updIf (mid : Nat) (new_message : String) (now : Nat) (x : Message) : Message :=
  if x.mid == mid then { x with message := new_message, updated_at := some now } else x

/-- `database.update_chat_message`: `$set` the `message` field and stamp
`updated_at` with the current time; when `modified_count > 0`, fetch and
return the updated document, else return `None`. -/
def update_chat_message (s : DB) (message_id : Nat) (new_message : String) :
    DB × Option Message :=
  if !s.connected then (s, none) else
  let r := dbUpdateOne message_id
    (fun m => { m with message := new_message, updated_at := some s.clock }) s.chat
  let s' := { s with chat := r.1, clock := s.clock + 1 }
  (s', if r.2 then s'.chat.find? (fun m => m.mid == message_id) else none)

/-- `database.delete_messages_after`: look the message up by id, take its
`timestamp` (failing closed when the document or the field is missing),
then `delete_many` every document of the conversation with a strictly
greater timestamp; the boolean result is `deleted_count > 0`. -/
def delete_messages_after (s : DB) (message_id : Nat) (conversation_id : String) :
    DB × Bool :=
  if !s.connected then (s, false) else
  match s.chat.find? (fun m => m.mid == message_id) with
  | none => (s, false)
  | some message =>
    match message.timestamp with
    | none => (s, false)
    | some t =>
      let remaining := s.chat.filter
        (fun x => !(x.conversation_id == conversation_id && tsGtB x.timestamp t))
      ({ s with chat := remaining }, decide (remaining.length < s.chat.length))

/-- `database.get_all_menu_items`: the stored items as returned by
`cursor.to_list(length=1000)` — at most the first 1000 documents —
with `_id` stringified. -/
def get_all_menu_items (s : DB) : List (String × MenuItem) :=
  if !s.connected then [] else
  (s.menu.take 1000).map (fun p => (toString p.1, p.2))

/-- `database.save_menu_items`: delete every stored item, then insert the
new list (each insert drawing a fresh ObjectId). -/
def save_menu_items (s : DB) (items : List MenuItem) : DB × Bool :=
  if !s.connected then (s, false) else
  let docs := items.enum.map (fun p => (s.nextId + p.1, p.2))
  ({ s with menu := docs, nextId := s.nextId + items.length }, true)

/-- The tail of `str.split(',', 1)`: the part after the first comma, or
`none` when there is no comma (in which case the two-target unpacking in
`save_cake_designs` raises `ValueError`, caught by the inner handler). -/
def splitOnceComma (str : String) : Option String :=
  match str.splitOn "," with
  | [] => none
  | [_] => none
  | _ :: rest => some (String.intercalate "," rest)

/-- Build one `design_doc` as `database.save_cake_designs` does: keep the
posted `image_url`; when it is a `data:image` base64 data URL that splits
and decodes, store the decoded bytes and clear the URL; when splitting or
decoding raises, log and keep the document as already built.
`b64decode` is the model of `base64.b64decode` (`none` = raised). -/
def processDesign (b64decode : String → Option (List Nat)) (now : Nat)
    (design : CakeDesign) : CakeDesignDoc :=
  let design_doc : CakeDesignDoc :=
    { design_id := design.design_id, name := design.name,
      description := design.description, image_url := design.image_url,
      image_data := none, created_at := now, updated_at := now }
  match design.image_url with
  | none => design_doc
  | some url =>
    if url != "" && url.startsWith "data:image" then
      match splitOnceComma url with
      | none => design_doc
      | some encoded =>
        match b64decode encoded with
        | none => design_doc
        | some image_data =>
          { design_doc with image_data := some image_data, image_url := none }
    else design_doc

/-- `database.save_cake_designs`: delete every stored design, process each
posted design, insert the processed documents. -/
def save_cake_designs (b64decode : String → Option (List Nat)) (s : DB)
    (designs : List CakeDesign) : DB × Bool :=
  if !s.connected then (s, false) else
  let designs_to_insert := designs.map (processDesign b64decode s.clock)
  ({ s with designs := designs_to_insert, clock := s.clock + 1 }, true)

/-- Configuration of the process as read from the environment in `app.py`:
credential, provider selection, model overrides, and whether the
`anthropic` package can be imported. -/
structure Config where
  ai_api_key : Option String
  ai_provider : String
  openai_model : String
  anthropic_model : String
  anthropicInstalled : Bool

/-- Outcome of one call to the external provider API (the Response
Generator boundary): reply text, or a raised exception's string. -/
inductive GenOutcome where
  | ok (text : String)
  | exn (msg : String)

/-- The fallback reply used when `AI_API_KEY` is not configured. -/
def notConfiguredText (userMessage : String) : String :=
  "I received your message: '" ++ userMessage ++
    "'. ⚠️ AI API key not configured. Please add your API key to use the AI agent."

/-- The model fallback in `app.py`'s `chat`: replace a model name that is
neither in `valid_models` nor a `gpt-3.5`/`gpt-4o` prefix by
`gpt-4o-mini`. -/
def resolveOpenAIModel (model : String) : String :=
  let valid_models := ["gpt-4o-mini", "gpt-3.5-turbo", "gpt-4o", "gpt-4-turbo",
    "gpt-4o-2024-05-13"]
  if !(valid_models.contains model) && !(model.startsWith "gpt-3.5") &&
      !(model.startsWith "gpt-4o") then "gpt-4o-mini" else model

/-- Substring occurrence test, modelling Python's `in` on strings. -/
def containsSub (s pat : String) : Bool := (s.splitOn pat).length != 1

/-- The model-error fallback text built in `chat` when the provider error
mentions `model_not_found` or `does not exist`. -/
def openaiModelErrorTextChat (model : String) : String :=
  "❌ Model Error: The model '" ++ model ++ "' is not available or you don't have access.\n\n" ++
  "✅ Valid models you can use:\n   • gpt-4o-mini (fast, cheap) - RECOMMENDED\n" ++
  "   • gpt-3.5-turbo (very fast, cheapest)\n   • gpt-4o (better quality)\n" ++
  "   • gpt-4-turbo (high quality)\n\nUpdate OPENAI_MODEL in your .env file and restart the server."

/-- The shorter model-error fallback text built in `edit_chat_message`. -/
def openaiModelErrorTextEdit (model : String) : String :=
  "❌ Model Error: The model '" ++ model ++ "' is not available.\n\n" ++
  "✅ Valid models: gpt-4o-mini, gpt-3.5-turbo, gpt-4o, gpt-4-turbo"

/-- The fallback reply of the unimplemented-provider branch of `chat`. -/
def notImplementedText (provider : String) : String :=
  "AI Provider '" ++ provider ++ "' not implemented. " ++
  "Please configure OPENAI_API_KEY or ANTHROPIC_API_KEY, or implement your custom provider."

/-- Body of the response of `POST /api/chat`. -/
structure ChatResponseM where
  response : String
  conversation_id : String
deriving DecidableEq

/-- The `POST /api/chat` endpoint (`app.chat`).  Context assembly (system
prompt, menu, designs, instructions) only reads configuration and feeds the
external call, whose outcome is the parameter `gen`; it does not change
stored state, so it is not reflected here.  Every branch ends by saving a
bot document — except the anthropic-package-missing branch, which returns
early without one. -/
def chatEndpoint (cfg : Config) (gen : GenOutcome) (s : DB) (message : String)
    (conversation_id? : Option String) : DB × ChatResponseM :=
  let conversation_id :=
    if pyTruthy conversation_id? then conversation_id?.getD "" else "default"
  let (s1, _) := save_chat_message s conversation_id "user" message none
  if !(pyTruthy cfg.ai_api_key) then
    let response_text := notConfiguredText message
    let (s2, _) := save_chat_message s1 conversation_id "bot" message (some response_text)
    (s2, ⟨response_text, conversation_id⟩)
  else if strLower cfg.ai_provider == "openai" then
    match gen with
    | .ok response_text =>
      let (s2, _) := save_chat_message s1 conversation_id "bot" message (some response_text)
      (s2, ⟨response_text, conversation_id⟩)
    | .exn error_msg =>
      let model := resolveOpenAIModel cfg.openai_model
      let response_text :=
        if containsSub error_msg "model_not_found" || containsSub error_msg "does not exist"
        then openaiModelErrorTextChat model
        else "Error calling AI API: " ++ error_msg
      let (s2, _) := save_chat_message s1 conversation_id "bot" message (some response_text)
      (s2, ⟨response_text, conversation_id⟩)
  else if strLower cfg.ai_provider == "anthropic" then
    if !cfg.anthropicInstalled then
      (s1, ⟨"Anthropic package not installed. Run: pip install anthropic", conversation_id⟩)
    else
      match gen with
      | .ok response_text =>
        let (s2, _) := save_chat_message s1 conversation_id "bot" message (some response_text)
        (s2, ⟨response_text, conversation_id⟩)
      | .exn error_msg =>
        let response_text := "Error calling AI API: " ++ error_msg
        let (s2, _) := save_chat_message s1 conversation_id "bot" message (some response_text)
        (s2, ⟨response_text, conversation_id⟩)
  else
    let response_text := notImplementedText cfg.ai_provider
    let (s2, _) := save_chat_message s1 conversation_id "bot" message (some response_text)
    (s2, ⟨response_text, conversation_id⟩)

/-- The response-regeneration block of `app.edit_chat_message` (lines
447–505): every configuration branch builds a reply text and persists it
as a fresh bot document; unlike `chat`, an `ImportError` on the anthropic
package is caught by the surrounding handler and persisted too. -/
def regenerate (cfg : Config) (gen : GenOutcome) (s : DB)
    (conversation_id new_message : String) : DB × String :=
  if !(pyTruthy cfg.ai_api_key) then
    let response_text := notConfiguredText new_message
    ((save_chat_message s conversation_id "bot" new_message (some response_text)).1,
      response_text)
  else if strLower cfg.ai_provider == "openai" then
    match gen with
    | .ok response_text =>
      ((save_chat_message s conversation_id "bot" new_message (some response_text)).1,
        response_text)
    | .exn error_msg =>
      let response_text :=
        if containsSub error_msg "model_not_found" || containsSub error_msg "does not exist"
        then openaiModelErrorTextEdit cfg.openai_model
        else "Error calling AI API: " ++ error_msg
      ((save_chat_message s conversation_id "bot" new_message (some response_text)).1,
        response_text)
  else if strLower cfg.ai_provider == "anthropic" then
    if !cfg.anthropicInstalled then
      let response_text := "Error calling AI API: No module named 'anthropic'"
      ((save_chat_message s conversation_id "bot" new_message (some response_text)).1,
        response_text)
    else
      match gen with
      | .ok response_text =>
        ((save_chat_message s conversation_id "bot" new_message (some response_text)).1,
          response_text)
      | .exn error_msg =>
        let response_text := "Error calling AI API: " ++ error_msg
        ((save_chat_message s conversation_id "bot" new_message (some response_text)).1,
          response_text)
  else
    let response_text :=
      "AI Provider '" ++ cfg.ai_provider ++ "' not implemented. " ++
      "Please configure OPENAI_API_KEY or ANTHROPIC_API_KEY."
    ((save_chat_message s conversation_id "bot" new_message (some response_text)).1,
      response_text)

/-- What `POST /api/chat/edit/{message_id}` sends back: the HTTP status
and, on success, the regenerated reply and the refreshed history. -/
structure EditResult where
  status : Nat
  new_response : Option String
  messages : List Message
deriving DecidableEq

/-- The `POST /api/chat/edit/{message_id}` endpoint
(`app.edit_chat_message`).  The handler wraps its whole body in
`try/except Exception`, and `fastapi.HTTPException` derives from
`Exception`, so the `HTTPException(400)` and `HTTPException(404)` raised
inside the body are caught by the blanket handler and re-surfaced as
status 500. -/
def edit_chat_message (cfg : Config) (gen : GenOutcome) (s : DB)
    (message_id : Nat) (body_message body_conversation_id : Option String) :
    DB × EditResult :=
  if !(pyTruthy body_message) || !(pyTruthy body_conversation_id) then
    (s, ⟨500, none, []⟩)
  else
    let new_message := body_message.getD ""
    let conversation_id := body_conversation_id.getD ""
    match update_chat_message s message_id new_message with
    | (s1, none) => (s1, ⟨500, none, []⟩)
    | (s1, some _updated_msg) =>
      let (s2, _) := delete_messages_after s1 message_id conversation_id
      let (s3, response_text) := regenerate cfg gen s2 conversation_id new_message
      let messages := get_chat_history s3 conversation_id 10000
      (s3, ⟨200, some response_text, messages⟩)

/-- The `DELETE /api/chat/history/{conversation_id}` endpoint
(`app.delete_chat_history`): the `HTTPException(404)` raised when nothing
was deleted is caught by the handler's own `except Exception` and
re-raised as status 500. -/
def delete_chat_history (s : DB) (conversation_id : String) : DB × Nat :=
  let (s', success) := delete_conversation s conversation_id
  if success then (s', 200) else (s', 500)

/-- The `GET /api/chat/history/{conversation_id}` endpoint: fetches with
`limit=10000`. -/
def get_chat_history_endpoint (s : DB) (conversation_id : String) : List Message :=
  get_chat_history s conversation_id 10000

/-- The `POST /api/menu` endpoint (`app.update_menu`): replace the stored
menu; a failed save raises `HTTPException(500)`. -/
def update_menu (s : DB) (items : List MenuItem) : DB × Nat :=
  let (s', success) := save_menu_items s items
  if success then (s', 200) else (s', 500)

/-- The `GET /api/menu` endpoint (`app.get_menu`). -/
def get_menu (s : DB) : List (String × MenuItem) :=
  get_all_menu_items s

/-- A sequence of `POST /api/chat` calls on one conversation id, each with
its message text and its provider outcome. -/
def runChats (cfg : Config) (conversation_id : String) :
    DB → List (String × GenOutcome) → DB
  | s, [] => s
  | s, (msg, gen) :: rest =>
    runChats cfg conversation_id (chatEndpoint cfg gen s msg (some conversation_id)).1 rest

/-- What claim C1 asserts of one `editAndRegenerate` call on target `m`
(whose stored timestamp is `t`) in conversation `c`: success status, the
surviving prefix updated in place plus exactly one appended bot entry, the
edited content present, and the final conversation length
`original - k + 1` where `k` counts the strictly later messages. -/
def editRegenSpec (cfg : Config) (gen : GenOutcome) (s : DB) (m : Message)
    (text c : String) (t : Nat) : Prop :=
  (edit_chat_message cfg gen s m.mid (some text) (some c)).2.status = 200 ∧
  (∃ bot : Message, bot.role = "bot" ∧ bot.message = text ∧
    convMsgs (edit_chat_message cfg gen s m.mid (some text) (some c)).1 c =
      (((convMsgs s c).filter (fun x => !(tsGtB x.timestamp t))).map
        (updIf m.mid text s.clock)) ++ [bot]) ∧
  { m with message := text, updated_at := some s.clock } ∈
    convMsgs (edit_chat_message cfg gen s m.mid (some text) (some c)).1 c ∧
  (convMsgs (edit_chat_message cfg gen s m.mid (some text) (some c)).1 c).length =
    (convMsgs s c).length
      - ((convMsgs s c).filter (fun x => tsGtB x.timestamp t)).length + 1

/-- One completed chat turn as stored: the conversation gained exactly a
user document and a bot document, the bot document carrying the reply. -/
def turnPersistsBot (s outState : DB) (c resp : String) : Prop :=
  ∃ u b : Message, convMsgs outState c = convMsgs s c ++ [u, b] ∧
    u.role = "user" ∧ b.role = "bot" ∧ b.response = some resp

/-! Concrete fixtures used by the witnesses and counterexamples. -/

/-- Provider configuration with no credential. -/
def exCfgNoKey : Config :=
  { ai_api_key := none, ai_provider := "openai", openai_model := "gpt-4o-mini",
    anthropic_model := "claude-3-opus-20240229", anthropicInstalled := true }

/-- Provider configuration with a credential, openai selected. -/
def exCfgOpenAI : Config :=
  { ai_api_key := some "sk-test", ai_provider := "openai", openai_model := "gpt-4o-mini",
    anthropic_model := "claude-3-opus-20240229", anthropicInstalled := true }

/-- Provider configuration with a credential, anthropic selected and installed. -/
def exCfgAnthropic : Config :=
  { ai_api_key := some "sk-test", ai_provider := "anthropic", openai_model := "gpt-4o-mini",
    anthropic_model := "claude-3-opus-20240229", anthropicInstalled := true }

/-- Provider configuration with a credential, anthropic selected, package missing. -/
def exCfgAnthropicMissing : Config :=
  { ai_api_key := some "sk-test", ai_provider := "anthropic", openai_model := "gpt-4o-mini",
    anthropic_model := "claude-3-opus-20240229", anthropicInstalled := false }

/-- Provider configuration with a credential and an unknown provider name. -/
def exCfgCustom : Config :=
  { ai_api_key := some "sk-test", ai_provider := "togetherai", openai_model := "gpt-4o-mini",
    anthropic_model := "claude-3-opus-20240229", anthropicInstalled := true }

def exU1 : Message :=
  { mid := 0, conversation_id := "c1", role := "user", message := "hi",
    response := none, timestamp := some 0, updated_at := none }

def exB1 : Message :=
  { mid := 1, conversation_id := "c1", role := "bot", message := "hi",
    response := some "r1", timestamp := some 1, updated_at := none }

def exU2 : Message :=
  { mid := 2, conversation_id := "c1", role := "user", message := "yo",
    response := none, timestamp := some 2, updated_at := none }

def exB2 : Message :=
  { mid := 3, conversation_id := "c1", role := "bot", message := "yo",
    response := some "r2", timestamp := some 3, updated_at := none }

/-- A conversation "c1" holding the four-turn history U1, B1, U2, B2. -/
def exDB : DB :=
  { connected := true, chat := [exU1, exB1, exU2, exB2], menu := [], designs := [],
    clock := 4, nextId := 4 }

/-- A connected, empty database. -/
def exEmptyDB : DB :=
  { connected := true, chat := [], menu := [], designs := [], clock := 0, nextId := 0 }

/-- A stored message with no recorded timestamp (the invariant violation
`delete_messages_after` guards against). -/
def exNoTs : Message :=
  { mid := 7, conversation_id := "c1", role := "user", message := "old",
    response := none, timestamp := none, updated_at := none }

def exDBNoTs : DB :=
  { connected := true, chat := [exNoTs, exB2], menu := [], designs := [],
    clock := 9, nextId := 8 }

/-- `n` stored messages of conversation "big" with ascending timestamps. -/
def mkMsgs (n : Nat) : List Message :=
  (List.range n).map (fun i =>
    { mid := i, conversation_id := "big", role := "user", message := "m",
      response := none, timestamp := some i, updated_at := none })

/-- A conversation holding 10001 messages, one more than the fetch limit. -/
def exBigDB : DB :=
  { connected := true, chat := mkMsgs 10001, menu := [], designs := [],
    clock := 10001, nextId := 10001 }

/-- `n` distinct menu items, used to exceed the menu read cap. -/
def mkItems (n : Nat) : List MenuItem :=
  (List.range n).map (fun i =>
    { name := toString i, description := none, price := none, category := none })

def exMenuItems : List MenuItem :=
  [{ name := "chocolate cake", description := some "rich", price := some 12,
     category := some "dessert" },
   { name := "lemon pie", description := none, price := none, category := none }]

def exDesigns : List CakeDesign :=
  [{ design_id := "d1", name := "swirl", description := "blue swirl",
     image_url := some "data:image/png;base64,AAAA" },
   { design_id := "d2", name := "plain", description := "plain white",
     image_url := some "https://example.com/cake.png" }]

/-- A decoder standing in for `base64.b64decode` in the witnesses. -/
def exB64 : String → Option (List Nat) := fun _ => some [137, 80, 78, 71]

/-! Basic facts about the timestamp order and the sort model. -/

theorem tsLe_total (a b : Option Nat) : tsLe a b = true ∨ tsLe b a = true := by
  cases a <;> cases b <;> simp [tsLe] <;> omega

theorem tsLe_trans {a b c : Option Nat} (h₁ : tsLe a b = true) (h₂ : tsLe b c = true) :
    tsLe a c = true := by
  cases a <;> cases b <;> cases c <;> simp_all [tsLe] <;> omega

theorem tsLt_imp_tsLe {a b : Option Nat} (h : tsLt a b = true) : tsLe a b = true := by
  cases a <;> cases b <;> simp_all [tsLt, tsLe] <;> omega

/-- The lists the chat-history sort leaves unchanged: pairwise ascending
timestamps. -/
def TsSorted (l : List Message) : Prop :=
  l.Pairwise (fun a b => tsLe a.timestamp b.timestamp = true)

/-- Strictly ascending timestamps: the shape of the raw collection, since
every insert stamps a strictly fresher time. -/
def TsStrict (l : List Message) : Prop :=
  l.Pairwise (fun a b => tsLt a.timestamp b.timestamp = true)

theorem TsStrict.tsSorted {l : List Message} (h : TsStrict l) : TsSorted l :=
  h.imp (fun hab => tsLt_imp_tsLe hab)

theorem insertTs_perm (m : Message) (l : List Message) :
    List.Perm (insertTs m l) (m :: l) := by
  induction l with
  | nil => simp [insertTs]
  | cons y ys ih =>
    simp only [insertTs]
    by_cases h : tsLe m.timestamp y.timestamp = true
    · simp [h]
    · rw [if_neg h]
      exact ((ih.cons y).trans (List.Perm.swap m y ys))

theorem mem_insertTs {x m : Message} {l : List Message}
    (h : x ∈ insertTs m l) : x = m ∨ x ∈ l := by
  have := (insertTs_perm m l).mem_iff.1 h
  simpa using this

theorem tsSorted_insertTs {m : Message} {l : List Message} (h : TsSorted l) :
    TsSorted (insertTs m l) := by
  induction l with
  | nil => simp [insertTs, TsSorted]
  | cons y ys ih =>
    rw [TsSorted, List.pairwise_cons] at h
    obtain ⟨hy, hys⟩ := h
    simp only [insertTs]
    by_cases hle : tsLe m.timestamp y.timestamp = true
    · rw [if_pos hle]
      rw [TsSorted, List.pairwise_cons]
      refine ⟨?_, List.pairwise_cons.2 ⟨hy, hys⟩⟩
      intro b hb
      rw [List.mem_cons] at hb
      rcases hb with rfl | hb
      · exact hle
      · exact tsLe_trans hle (hy _ hb)
    · rw [if_neg hle]
      rw [TsSorted, List.pairwise_cons]
      refine ⟨?_, ih hys⟩
      intro b hb
      rcases mem_insertTs hb with rfl | hb
      · rcases tsLe_total b.timestamp y.timestamp with h' | h'
        · exact absurd h' hle
        · exact h'
      · exact hy _ hb

theorem sortTs_perm (l : List Message) : List.Perm (sortTs l) l := by
  induction l with
  | nil => simp [sortTs]
  | cons x xs ih => exact (insertTs_perm x (sortTs xs)).trans (ih.cons x)

theorem length_sortTs (l : List Message) : (sortTs l).length = l.length :=
  (sortTs_perm l).length_eq

theorem tsSorted_sortTs (l : List Message) : TsSorted (sortTs l) := by
  induction l with
  | nil => simp [sortTs, TsSorted]
  | cons x xs ih => exact tsSorted_insertTs ih

theorem sortTs_eq_self {l : List Message} (h : TsSorted l) : sortTs l = l := by
  induction l with
  | nil => rfl
  | cons x xs ih =>
    rw [TsSorted, List.pairwise_cons] at h
    obtain ⟨hx, hxs⟩ := h
    simp only [sortTs, ih hxs]
    cases xs with
    | nil => rfl
    | cons y ys => simp [insertTs, hx y (by simp)]

/-! Generic counting and update lemmas over the collection model. -/

theorem length_filter_partition (p : Message → Bool) (l : List Message) :
    (l.filter p).length + (l.filter (fun a => !(p a))).length = l.length := by
  induction l with
  | nil => rfl
  | cons x xs ih =>
    by_cases h : p x = true
    · rw [List.filter_cons_of_pos h, List.filter_cons_of_neg (by simp [h])]
      simp only [List.length_cons]
      omega
    · have h' : p x = false := by simpa using h
      rw [List.filter_cons_of_neg (by simp [h']), List.filter_cons_of_pos (by simp [h'])]
      simp only [List.length_cons]
      omega

theorem length_filter_lt_iff (p : Message → Bool) (l : List Message) :
    (l.filter p).length < l.length ↔ ∃ x ∈ l, p x = false := by
  induction l with
  | nil => simp
  | cons x xs ih =>
    by_cases h : p x = true
    · rw [List.filter_cons_of_pos h]
      simp only [List.length_cons]
      constructor
      · intro hlen
        rcases ih.1 (by omega) with ⟨y, hy, hyp⟩
        exact ⟨y, by simp [hy], hyp⟩
      · intro ⟨y, hy, hyp⟩
        rw [List.mem_cons] at hy
        rcases hy with rfl | hy
        · simp_all
        · have := ih.2 ⟨y, hy, hyp⟩
          omega
    · have h' : p x = false := by simpa using h
      rw [List.filter_cons_of_neg (by simp [h'])]
      simp only [List.length_cons]
      constructor
      · intro _
        exact ⟨x, by simp, h'⟩
      · intro _
        have := List.length_filter_le p xs
        omega

theorem map_update_id {mid : Nat} {f : Message → Message} {l : List Message}
    (h : ∀ y ∈ l, (y.mid == mid) = false) :
    l.map (fun x => if x.mid == mid then f x else x) = l := by
  induction l with
  | nil => rfl
  | cons x xs ih =>
    have hx : ¬ ((x.mid == mid) = true) := by
      rw [h x (by simp)]
      simp
    simp only [List.map_cons, if_neg hx]
    rw [ih (fun y hy => h y (List.mem_cons_of_mem x hy))]

theorem dbUpdateOne_fst_map {mid : Nat} {f : Message → Message} {l : List Message}
    (hnd : (l.map Message.mid).Nodup) :
    (dbUpdateOne mid f l).1 = l.map (fun x => if x.mid == mid then f x else x) := by
  induction l with
  | nil => rfl
  | cons x xs ih =>
    rw [List.map_cons, List.nodup_cons] at hnd
    obtain ⟨hx, hxs⟩ := hnd
    simp only [dbUpdateOne, List.map_cons]
    by_cases h : (x.mid == mid) = true
    · rw [if_pos h, if_pos h]
      have hmid : x.mid = mid := by simpa using h
      have hnone : ∀ y ∈ xs, (y.mid == mid) = false := by
        intro y hy
        have hne : y.mid ≠ x.mid := fun he => hx (he ▸ List.mem_map_of_mem Message.mid hy)
        rw [hmid] at hne
        simpa using hne
      rw [map_update_id hnone]
    · rw [if_neg h, if_neg h, ih hxs]

theorem dbUpdateOne_snd_of_find? {mid : Nat} {f : Message → Message} {l : List Message}
    {m : Message} (h : l.find? (fun x => x.mid == mid) = some m) :
    (dbUpdateOne mid f l).2 = decide (¬ f m = m) := by
  induction l with
  | nil => simp at h
  | cons x xs ih =>
    by_cases hx : (x.mid == mid) = true
    · simp only [List.find?_cons, hx] at h
      cases h
      simp only [dbUpdateOne, if_pos hx]
    · have hx' : (x.mid == mid) = false := by simpa using hx
      simp only [List.find?_cons, hx'] at h
      simp only [dbUpdateOne, if_neg hx]
      exact ih h

theorem dbUpdateOne_find?_isSome {mid : Nat} {f : Message → Message}
    (hf : ∀ x, (f x).mid = x.mid) (l : List Message) :
    ((dbUpdateOne mid f l).1.find? (fun x => x.mid == mid)).isSome =
      (l.find? (fun x => x.mid == mid)).isSome := by
  induction l with
  | nil => rfl
  | cons x xs ih =>
    cases hx : (x.mid == mid) with
    | true =>
      have hfx : ((f x).mid == mid) = true := by
        rw [show (f x).mid = x.mid from hf x]
        exact hx
      simp [dbUpdateOne, hx, List.find?_cons, hfx]
    | false =>
      simp only [dbUpdateOne, hx, Bool.false_eq_true, if_false, List.find?_cons]
      exact ih

/-- The well-formedness invariant of every database state reachable through
the modelled operations: ObjectIds are below the counter and pairwise
distinct, every stored time (timestamp or update stamp) is in the past,
and the collection is in strictly ascending timestamp order (each insert
stamps a strictly fresher time). -/
structure WF (s : DB) : Prop where
  ids_lt : ∀ m ∈ s.chat, m.mid < s.nextId
  ids_nodup : (s.chat.map Message.mid).Nodup
  ts_lt : ∀ m ∈ s.chat, tsLt m.timestamp (some s.clock) = true
  upd_lt : ∀ m ∈ s.chat, tsLt m.updated_at (some s.clock) = true
  strict : TsStrict s.chat

instance (l : List Message) : Decidable (TsStrict l) :=
  inferInstanceAs (Decidable (List.Pairwise _ l))

instance (l : List Message) : Decidable (TsSorted l) :=
  inferInstanceAs (Decidable (List.Pairwise _ l))

theorem tsLt_none_some (c : Nat) : tsLt none (some c) = true := by
  simp [tsLt, tsLe]

theorem tsLt_some_some {a c : Nat} (h : a < c) : tsLt (some a) (some c) = true := by
  simp [tsLt, tsLe]
  omega

theorem tsLt_some_mono {a : Option Nat} {c c' : Nat} (h : tsLt a (some c) = true)
    (hc : c ≤ c') : tsLt a (some c') = true := by
  cases a with
  | none => exact tsLt_none_some c'
  | some t =>
    simp only [tsLt, tsLe, Bool.not_eq_true'] at h ⊢
    simp only [decide_eq_false_iff_not] at h ⊢
    omega

theorem WF_save {s : DB} (h : WF s) (cid role msg : String) (resp : Option String) :
    WF (save_chat_message s cid role msg resp).1 := by
  obtain ⟨h1, h2, h3, h4, h5⟩ := h
  unfold save_chat_message
  cases hc : s.connected with
  | false => exact ⟨h1, h2, h3, h4, h5⟩
  | true =>
    simp only [hc, Bool.not_true, Bool.false_eq_true, if_false]
    refine ⟨?_, ?_, ?_, ?_, ?_⟩
    · intro m hm
      rw [List.mem_append] at hm
      rcases hm with hm | hm
      · exact Nat.lt_succ_of_lt (h1 m hm)
      · rw [List.mem_singleton] at hm
        subst hm
        exact Nat.lt_succ_self _
    · rw [List.map_append]
      refine List.Nodup.append h2 (List.nodup_singleton _) ?_
      intro a ha hb
      rw [List.mem_map] at ha
      obtain ⟨m, hm, rfl⟩ := ha
      simp only [List.map_cons, List.map_nil, List.mem_singleton, chatDoc] at hb
      exact absurd (h1 m hm) (by omega)
    · intro m hm
      rw [List.mem_append] at hm
      rcases hm with hm | hm
      · exact tsLt_some_mono (h3 m hm) (Nat.le_succ _)
      · rw [List.mem_singleton] at hm
        subst hm
        exact tsLt_some_some (Nat.lt_succ_self _)
    · intro m hm
      rw [List.mem_append] at hm
      rcases hm with hm | hm
      · exact tsLt_some_mono (h4 m hm) (Nat.le_succ _)
      · rw [List.mem_singleton] at hm
        subst hm
        exact tsLt_none_some _
    · rw [TsStrict, List.pairwise_append]
      refine ⟨h5, List.pairwise_singleton _ _, ?_⟩
      intro a ha b hb
      rw [List.mem_singleton] at hb
      subst hb
      exact h3 a ha

theorem WF_filter {s : DB} (h : WF s) (p : Message → Bool) :
    WF { s with chat := s.chat.filter p } := by
  obtain ⟨h1, h2, h3, h4, h5⟩ := h
  refine ⟨?_, ?_, ?_, ?_, ?_⟩
  · intro m hm
    exact h1 m (List.mem_of_mem_filter hm)
  · exact List.Nodup.sublist (List.Sublist.map _ (List.filter_sublist _)) h2
  · intro m hm
    exact h3 m (List.mem_of_mem_filter hm)
  · intro m hm
    exact h4 m (List.mem_of_mem_filter hm)
  · exact List.Pairwise.sublist (List.filter_sublist _) h5

theorem updIf_mid (mid : Nat) (text : String) (now : Nat) (x : Message) :
    (updIf mid text now x).mid = x.mid := by
  unfold updIf
  split <;> rfl

theorem updIf_timestamp (mid : Nat) (text : String) (now : Nat) (x : Message) :
    (updIf mid text now x).timestamp = x.timestamp := by
  unfold updIf
  split <;> rfl

theorem updIf_conversation_id (mid : Nat) (text : String) (now : Nat) (x : Message) :
    (updIf mid text now x).conversation_id = x.conversation_id := by
  unfold updIf
  split <;> rfl

theorem updIf_role (mid : Nat) (text : String) (now : Nat) (x : Message) :
    (updIf mid text now x).role = x.role := by
  unfold updIf
  split <;> rfl

theorem update_chat_message_fst (s : DB) (mid : Nat) (text : String)
    (hc : s.connected = true) :
    (update_chat_message s mid text).1 =
      { s with
        chat := (dbUpdateOne mid
          (fun m => { m with message := text, updated_at := some s.clock }) s.chat).1,
        clock := s.clock + 1 } := by
  unfold update_chat_message
  rw [hc]
  rfl

theorem update_chat_message_fst_not_connected (s : DB) (mid : Nat) (text : String)
    (hc : s.connected = false) :
    (update_chat_message s mid text).1 = s := by
  unfold update_chat_message
  rw [hc]
  rfl

theorem update_chat_message_chat (s : DB) (mid : Nat) (text : String)
    (hc : s.connected = true) (hnd : (s.chat.map Message.mid).Nodup) :
    (update_chat_message s mid text).1 =
      { s with chat := s.chat.map (updIf mid text s.clock), clock := s.clock + 1 } := by
  rw [update_chat_message_fst s mid text hc, dbUpdateOne_fst_map hnd]
  rfl

theorem WF_update {s : DB} (h : WF s) (mid : Nat) (text : String) :
    WF (update_chat_message s mid text).1 := by
  cases hc : s.connected with
  | false =>
    rw [update_chat_message_fst_not_connected s mid text hc]
    exact h
  | true =>
    obtain ⟨h1, h2, h3, h4, h5⟩ := h
    rw [update_chat_message_chat s mid text hc h2]
    refine ⟨?_, ?_, ?_, ?_, ?_⟩
    · intro m hm
      rw [List.mem_map] at hm
      obtain ⟨y, hy, rfl⟩ := hm
      rw [updIf_mid]
      exact h1 y hy
    · rw [List.map_map]
      have heq : List.map (Message.mid ∘ updIf mid text s.clock) s.chat =
          List.map Message.mid s.chat :=
        List.map_congr_left (fun a _ => updIf_mid mid text s.clock a)
      rw [heq]
      exact h2
    · intro m hm
      rw [List.mem_map] at hm
      obtain ⟨y, hy, rfl⟩ := hm
      rw [updIf_timestamp]
      exact tsLt_some_mono (h3 y hy) (Nat.le_succ _)
    · intro m hm
      rw [List.mem_map] at hm
      obtain ⟨y, hy, rfl⟩ := hm
      unfold updIf
      by_cases hy' : (y.mid == mid) = true
      · simp only [if_pos hy']
        exact tsLt_some_some (Nat.lt_succ_self _)
      · simp only [if_neg hy']
        exact tsLt_some_mono (h4 y hy) (Nat.le_succ _)
    · rw [TsStrict, List.pairwise_map]
      refine h5.imp_of_mem ?_
      intro a b _ _ hab
      rw [updIf_timestamp, updIf_timestamp]
      exact hab

theorem save_chat_message_fst (s : DB) (cid role msg : String) (resp : Option String)
    (hc : s.connected = true) :
    (save_chat_message s cid role msg resp).1 =
      { s with chat := s.chat ++ [chatDoc s cid role msg resp],
               clock := s.clock + 1, nextId := s.nextId + 1 } := by
  unfold save_chat_message
  rw [hc]
  rfl

theorem convMsgs_save_self (s : DB) (c role msg : String) (resp : Option String)
    (hc : s.connected = true) :
    convMsgs (save_chat_message s c role msg resp).1 c =
      convMsgs s c ++ [chatDoc s c role msg resp] := by
  rw [save_chat_message_fst s c role msg resp hc]
  unfold convMsgs
  show (s.chat ++ [chatDoc s c role msg resp]).filter _ = _
  rw [List.filter_append]
  congr 1
  rw [List.filter_cons_of_pos (by simp [chatDoc])]
  rfl

theorem chatDoc_role (s : DB) (c role msg : String) (resp : Option String) :
    (chatDoc s c role msg resp).role = role := rfl

theorem chatDoc_response (s : DB) (c role msg : String) (resp : Option String) :
    (chatDoc s c role msg resp).response = resp := rfl

theorem save_connected (s : DB) (c role msg : String) (resp : Option String) :
    (save_chat_message s c role msg resp).1.connected = s.connected := by
  cases hc : s.connected with
  | false =>
    unfold save_chat_message
    rw [hc]
    exact hc
  | true =>
    unfold save_chat_message
    rw [hc]
    rfl

/-- Every configuration branch of the regeneration block persists exactly
one bot document built from the edited text and returns its reply text. -/
theorem regenerate_spec (cfg : Config) (gen : GenOutcome) (s : DB)
    (c msg : String) :
    ∃ resp : String,
      regenerate cfg gen s c msg =
        ((save_chat_message s c "bot" msg (some resp)).1, resp) := by
  unfold regenerate
  by_cases hk : pyTruthy cfg.ai_api_key = true
  · simp only [hk, Bool.not_true, Bool.false_eq_true, if_false]
    by_cases hoa : (strLower cfg.ai_provider == "openai") = true
    · simp only [hoa, if_pos]
      cases gen with
      | ok text => exact ⟨text, rfl⟩
      | exn e =>
        by_cases hm : (containsSub e "model_not_found" || containsSub e "does not exist") = true
        · exact ⟨openaiModelErrorTextEdit cfg.openai_model, by simp [hm]⟩
        · exact ⟨"Error calling AI API: " ++ e, by simp [hm]⟩
    · simp only [hoa, Bool.false_eq_true, if_false]
      by_cases han : (strLower cfg.ai_provider == "anthropic") = true
      · simp only [han, if_pos]
        by_cases hin : cfg.anthropicInstalled = true
        · simp only [hin, Bool.not_true, Bool.false_eq_true, if_false]
          cases gen with
          | ok text => exact ⟨text, rfl⟩
          | exn e => exact ⟨"Error calling AI API: " ++ e, rfl⟩
        · have hin' : cfg.anthropicInstalled = false := by simpa using hin
          simp only [hin', Bool.not_false, if_true]
          exact ⟨"Error calling AI API: No module named 'anthropic'", rfl⟩
      · simp only [han, Bool.false_eq_true, if_false]
        exact ⟨"AI Provider '" ++ cfg.ai_provider ++ "' not implemented. " ++
          "Please configure OPENAI_API_KEY or ANTHROPIC_API_KEY.", rfl⟩
  · have hk' : pyTruthy cfg.ai_api_key = false := by simpa using hk
    simp only [hk', Bool.not_false, if_true]
    exact ⟨notConfiguredText msg, rfl⟩

theorem find?_eq_of_nodup_mem {l : List Message} {m : Message} {mid : Nat}
    (hnd : (l.map Message.mid).Nodup) (hm : m ∈ l) (hmid : m.mid = mid) :
    l.find? (fun x => x.mid == mid) = some m := by
  induction l with
  | nil => simp at hm
  | cons x xs ih =>
    rw [List.map_cons, List.nodup_cons] at hnd
    obtain ⟨hx, hxs⟩ := hnd
    rw [List.mem_cons] at hm
    cases hmx : (x.mid == mid) with
    | true =>
      have hxm : x.mid = mid := by simpa using hmx
      rcases hm with rfl | hm
      · simp [List.find?_cons, hmx]
      · have hmem : m.mid ∈ List.map Message.mid xs := List.mem_map_of_mem Message.mid hm
        rw [hmid, ← hxm] at hmem
        exact absurd hmem hx
    | false =>
      rcases hm with rfl | hm
      · rw [hmid] at hmx
        simp at hmx
      · simp only [List.find?_cons, hmx]
        exact ih hxs hm

theorem tsLt_ne {a : Option Nat} {c : Nat} (h : tsLt a (some c) = true) :
    a ≠ some c := by
  cases a with
  | none => simp
  | some u =>
    simp only [tsLt, tsLe, Bool.not_eq_true', decide_eq_false_iff_not] at h
    intro he
    cases he
    omega

theorem update_chat_message_eq (s : DB) (mid : Nat) (text : String)
    (hc : s.connected = true) :
    update_chat_message s mid text =
      ({ s with
          chat := (dbUpdateOne mid
            (fun m => { m with message := text, updated_at := some s.clock }) s.chat).1,
          clock := s.clock + 1 },
        if (dbUpdateOne mid
            (fun m => { m with message := text, updated_at := some s.clock }) s.chat).2
        then (dbUpdateOne mid
            (fun m => { m with message := text, updated_at := some s.clock }) s.chat).1.find?
          (fun x => x.mid == mid)
        else none) := by
  unfold update_chat_message
  rw [hc]
  rfl

/-- With a well-formed state and an existing target message, the update
step reports the (modified) document rather than `None`, and the new state
carries the per-document rewrite. -/
theorem update_chat_message_some {s : DB} {m : Message} {mid : Nat} (text : String)
    (hc : s.connected = true) (hnd : (s.chat.map Message.mid).Nodup)
    (hm : m ∈ s.chat) (hmid : m.mid = mid)
    (hupd : tsLt m.updated_at (some s.clock) = true) :
    ∃ u, update_chat_message s mid text =
      ({ s with chat := s.chat.map (updIf mid text s.clock), clock := s.clock + 1 },
        some u) := by
  have hfind := find?_eq_of_nodup_mem hnd hm hmid
  have hr2 : (dbUpdateOne mid
      (fun m => { m with message := text, updated_at := some s.clock }) s.chat).2 = true := by
    rw [dbUpdateOne_snd_of_find? hfind]
    have hne : ({ m with message := text, updated_at := some s.clock } : Message) ≠ m := by
      intro he
      have := congrArg Message.updated_at he
      exact absurd this.symm (tsLt_ne hupd)
    simp [hne]
  have hiss : (((dbUpdateOne mid
      (fun m => { m with message := text, updated_at := some s.clock }) s.chat).1.find?
        (fun x => x.mid == mid)).isSome) = true := by
    rw [@dbUpdateOne_find?_isSome mid
      (fun m => { m with message := text, updated_at := some s.clock })
      (fun _ => rfl) s.chat, hfind]
    rfl
  rw [Option.isSome_iff_exists] at hiss
  obtain ⟨u, hu⟩ := hiss
  refine ⟨u, ?_⟩
  rw [update_chat_message_eq s mid text hc, hr2, if_pos rfl, hu,
    dbUpdateOne_fst_map hnd]
  rfl

/-- Characterization of `delete_messages_after` when the target message is
found and carries a timestamp. -/
theorem delete_messages_after_spec {s : DB} {m : Message} {mid : Nat} {t : Nat}
    (c : String) (hc : s.connected = true)
    (hfind : s.chat.find? (fun x => x.mid == mid) = some m)
    (hts : m.timestamp = some t) :
    delete_messages_after s mid c =
      ({ s with chat := (s.chat.filter
          (fun x => !(x.conversation_id == c && tsGtB x.timestamp t))) },
        decide ((s.chat.filter
          (fun x => !(x.conversation_id == c && tsGtB x.timestamp t))).length
            < s.chat.length)) := by
  simp only [delete_messages_after, hc, Bool.not_true, Bool.false_eq_true, if_false,
    hfind, hts]

theorem filter_conv_del_map (mid : Nat) (text : String) (now : Nat) (c : String)
    (t : Nat) (X : List Message) :
    ((X.map (updIf mid text now)).filter
        (fun x => !(x.conversation_id == c && tsGtB x.timestamp t))).filter
      (fun x => x.conversation_id == c)
    = ((X.filter (fun x => x.conversation_id == c)).filter
        (fun x => !(tsGtB x.timestamp t))).map (updIf mid text now) := by
  induction X with
  | nil => rfl
  | cons x xs ih =>
    rw [List.map_cons]
    by_cases hcv : (x.conversation_id == c) = true
    · by_cases hgt : tsGtB x.timestamp t = true
      · rw [List.filter_cons_of_neg
          (by simp [updIf_conversation_id, updIf_timestamp, hcv, hgt]),
          List.filter_cons_of_pos (by exact hcv), List.filter_cons_of_neg (by simp [hgt])]
        exact ih
      · have hgt' : tsGtB x.timestamp t = false := by simpa using hgt
        rw [List.filter_cons_of_pos
            (by simp [updIf_conversation_id, updIf_timestamp, hcv, hgt']),
          List.filter_cons_of_pos (by simp [updIf_conversation_id, hcv]),
          List.filter_cons_of_pos (by exact hcv), List.filter_cons_of_pos (by simp [hgt']),
          List.map_cons]
        rw [ih]
    · have hcv' : (x.conversation_id == c) = false := by simpa using hcv
      rw [List.filter_cons_of_pos (by simp [updIf_conversation_id, hcv']),
        List.filter_cons_of_neg (by simp [updIf_conversation_id, hcv']),
        List.filter_cons_of_neg (by simp [hcv'])]
      exact ih

theorem edit_chat_message_eq (cfg : Config) (gen : GenOutcome) (s : DB) (mid : Nat)
    (text c : String) (s1 : DB) (u : Message)
    (htext : text ≠ "") (hcne : c ≠ "")
    (hupd : update_chat_message s mid text = (s1, some u)) :
    edit_chat_message cfg gen s mid (some text) (some c) =
      ((regenerate cfg gen (delete_messages_after s1 mid c).1 c text).1,
        ⟨200, some (regenerate cfg gen (delete_messages_after s1 mid c).1 c text).2,
          get_chat_history (regenerate cfg gen (delete_messages_after s1 mid c).1 c text).1
            c 10000⟩) := by
  unfold edit_chat_message
  have h1 : pyTruthy (some text) = true := by simp [pyTruthy, htext]
  have h2 : pyTruthy (some c) = true := by simp [pyTruthy, hcne]
  rw [h1, h2]
  simp only [Bool.not_true, Bool.false_eq_true, Bool.or_self, if_false, Option.getD_some]
  rw [hupd]

/-- C1: an edit of target message `m` (timestamp `t`) in conversation `c`
deletes exactly the strictly later messages of `c`, rewrites `m`'s content,
appends exactly one bot entry, and leaves `c` with `original - k + 1`
stored messages. -/
theorem C1_edit_and_regenerate (cfg : Config) (gen : GenOutcome) (s : DB)
    (m : Message) (text c : String) (t : Nat)
    (hWF : WF s) (hc : s.connected = true) (hm : m ∈ s.chat)
    (hcid : m.conversation_id = c) (hts : m.timestamp = some t)
    (htext : text ≠ "") (hcne : c ≠ "") :
    editRegenSpec cfg gen s m text c t := by
  obtain ⟨u, hupd⟩ :=
    update_chat_message_some text hc hWF.ids_nodup hm rfl (hWF.upd_lt m hm)
  set s1 : DB :=
    { s with chat := s.chat.map (updIf m.mid text s.clock), clock := s.clock + 1 }
    with hs1
  have hWF1 : WF s1 := by
    have h := WF_update hWF m.mid text
    rw [update_chat_message_chat s m.mid text hc hWF.ids_nodup] at h
    exact h
  have hc1 : s1.connected = true := hc
  have hmem1 : updIf m.mid text s.clock m ∈ s1.chat := List.mem_map_of_mem _ hm
  have hfind1 : s1.chat.find? (fun x => x.mid == m.mid) =
      some (updIf m.mid text s.clock m) :=
    find?_eq_of_nodup_mem hWF1.ids_nodup hmem1 (updIf_mid _ _ _ _)
  have hts1 : (updIf m.mid text s.clock m).timestamp = some t := by
    rw [updIf_timestamp]
    exact hts
  set s2 : DB :=
    { s1 with chat := (s1.chat.filter
        (fun x => !(x.conversation_id == c && tsGtB x.timestamp t))) }
    with hs2
  have hdel1 : (delete_messages_after s1 m.mid c).1 = s2 := by
    rw [delete_messages_after_spec c hc1 hfind1 hts1]
  obtain ⟨resp, hre⟩ := regenerate_spec cfg gen s2 c text
  have hre1 : (regenerate cfg gen s2 c text).1 =
      (save_chat_message s2 c "bot" text (some resp)).1 := by
    rw [hre]
  have hre2 : (regenerate cfg gen s2 c text).2 = resp := by
    rw [hre]
  have hc2 : s2.connected = true := hc
  have hout : edit_chat_message cfg gen s m.mid (some text) (some c) =
      ((save_chat_message s2 c "bot" text (some resp)).1,
        ⟨200, some resp,
          get_chat_history (save_chat_message s2 c "bot" text (some resp)).1 c 10000⟩) := by
    rw [edit_chat_message_eq cfg gen s m.mid text c s1 u htext hcne hupd, hdel1, hre1, hre2]
  have hconv2 : convMsgs s2 c =
      ((convMsgs s c).filter (fun x => !(tsGtB x.timestamp t))).map
        (updIf m.mid text s.clock) := by
    rw [hs2]
    show (((s1.chat.filter _).filter _ : List Message)) = _
    rw [hs1]
    exact filter_conv_del_map m.mid text s.clock c t s.chat
  have hconv3 : convMsgs (edit_chat_message cfg gen s m.mid (some text) (some c)).1 c =
      (((convMsgs s c).filter (fun x => !(tsGtB x.timestamp t))).map
        (updIf m.mid text s.clock)) ++ [chatDoc s2 c "bot" text (some resp)] := by
    rw [hout]
    show convMsgs (save_chat_message s2 c "bot" text (some resp)).1 c = _
    rw [convMsgs_save_self s2 c "bot" text (some resp) hc2, hconv2]
  refine ⟨?_, ?_, ?_, ?_⟩
  · rw [hout]
  · exact ⟨chatDoc s2 c "bot" text (some resp), rfl, rfl, hconv3⟩
  · rw [hconv3]
    rw [List.mem_append]
    left
    rw [List.mem_map]
    refine ⟨m, ?_, ?_⟩
    · rw [List.mem_filter]
      refine ⟨?_, ?_⟩
      · rw [convMsgs, List.mem_filter]
        exact ⟨hm, by simp [hcid]⟩
      · rw [hts]
        simp [tsGtB]
    · unfold updIf
      rw [if_pos (by simp)]
  · rw [hconv3]
    rw [List.length_append, List.length_map]
    have hpart := length_filter_partition (fun x => tsGtB x.timestamp t) (convMsgs s c)
    simp only [] at hpart
    have hle := List.length_filter_le (fun x => tsGtB x.timestamp t) (convMsgs s c)
    simp only [List.length_cons, List.length_nil]
    omega

theorem C1_edit_and_regenerate_witness :
    editRegenSpec exCfgNoKey (.ok "r3") exDB exU2 "X" "c1" 2 :=
  C1_edit_and_regenerate exCfgNoKey (.ok "r3") exDB exU2 "X" "c1" 2
    ⟨by decide, by decide, by decide, by decide, by decide⟩
    (by decide) (by decide) (by decide) (by decide) (by decide) (by decide)

/-- C6: when the edited message exists but has no recorded timestamp, the
deletion step fails closed: nothing at all is deleted and the state is
returned unchanged. -/
theorem C6_delete_after_no_timestamp (s : DB) (mid : Nat) (c : String) (m : Message)
    (hfind : s.chat.find? (fun x => x.mid == mid) = some m)
    (hts : m.timestamp = none) :
    delete_messages_after s mid c = (s, false) := by
  cases hc : s.connected with
  | false => simp only [delete_messages_after, hc, Bool.not_false, if_true]
  | true =>
    simp only [delete_messages_after, hc, Bool.not_true, Bool.false_eq_true, if_false,
      hfind, hts]

theorem C6_delete_after_no_timestamp_witness :
    delete_messages_after exDBNoTs 7 "c1" = (exDBNoTs, false) :=
  C6_delete_after_no_timestamp exDBNoTs 7 "c1" exNoTs (by decide) (by decide)

/-- C5 (counterexample): the result of `delete_messages_after` is not the
number of deleted messages — deleting after message 2 removes one
document and deleting after message 1 removes two, yet both calls return
the same value. -/
theorem C5_counterexample :
    exDB.chat.length - (delete_messages_after exDB 2 "c1").1.chat.length = 1 ∧
    exDB.chat.length - (delete_messages_after exDB 1 "c1").1.chat.length = 2 ∧
    (delete_messages_after exDB 2 "c1").2 = (delete_messages_after exDB 1 "c1").2 := by
  decide

/-- C5 (amended): `delete_messages_after` removes exactly the messages of
the conversation with a timestamp strictly greater than the target's, and
returns a boolean that is true iff at least one message was deleted (a
deletion count of zero returns `false` without failing). -/
theorem C5_delete_after_amended (s : DB) (mid : Nat) (c : String) (m : Message) (t : Nat)
    (hc : s.connected = true)
    (hfind : s.chat.find? (fun x => x.mid == mid) = some m)
    (hts : m.timestamp = some t) :
    (∀ x : Message, x ∈ (delete_messages_after s mid c).1.chat ↔
        (x ∈ s.chat ∧ ¬(x.conversation_id = c ∧ tsGtB x.timestamp t = true))) ∧
    (delete_messages_after s mid c).1.chat.length =
      s.chat.length -
        (s.chat.filter (fun x => x.conversation_id == c && tsGtB x.timestamp t)).length ∧
    ((delete_messages_after s mid c).2 = true ↔
      ∃ x ∈ s.chat, x.conversation_id = c ∧ tsGtB x.timestamp t = true) := by
  rw [delete_messages_after_spec c hc hfind hts]
  dsimp only
  refine ⟨?_, ?_, ?_⟩
  · intro x
    rw [List.mem_filter]
    constructor
    · intro ⟨hx, hp⟩
      refine ⟨hx, ?_⟩
      intro ⟨h1, h2⟩
      rw [h1] at hp
      simp [h2] at hp
    · intro ⟨hx, hp⟩
      refine ⟨hx, ?_⟩
      by_cases h1 : (x.conversation_id == c) = true
      · have : ¬ tsGtB x.timestamp t = true := fun h2 => hp ⟨by simpa using h1, h2⟩
        simp [this]
      · simp [h1]
  · have hpart := length_filter_partition
      (fun x => x.conversation_id == c && tsGtB x.timestamp t) s.chat
    simp only [] at hpart
    omega
  · rw [decide_eq_true_eq, length_filter_lt_iff]
    constructor
    · intro ⟨x, hx, hp⟩
      refine ⟨x, hx, ?_⟩
      have := hp
      simp only [Bool.not_eq_false', Bool.and_eq_true, beq_iff_eq] at this
      exact this
    · intro ⟨x, hx, h1, h2⟩
      refine ⟨x, hx, ?_⟩
      simp [h1, h2]

theorem C5_delete_after_amended_witness :
    (∀ x : Message, x ∈ (delete_messages_after exDB 2 "c1").1.chat ↔
        (x ∈ exDB.chat ∧ ¬(x.conversation_id = "c1" ∧ tsGtB x.timestamp 2 = true))) ∧
    (delete_messages_after exDB 2 "c1").1.chat.length =
      exDB.chat.length -
        (exDB.chat.filter (fun x => x.conversation_id == "c1" && tsGtB x.timestamp 2)).length ∧
    ((delete_messages_after exDB 2 "c1").2 = true ↔
      ∃ x ∈ exDB.chat, x.conversation_id = "c1" ∧ tsGtB x.timestamp 2 = true) :=
  C5_delete_after_amended exDB 2 "c1" exU2 2 (by decide) (by decide) (by decide)

/-- C10 (counterexample): editing message 0 of the example state with its
own current content "hi" does not report NotFound — the update modifies
the document (it stamps `updated_at`), so the updated message is
returned. -/
theorem C10_counterexample :
    exU1 ∈ exDB.chat ∧ exU1.message = "hi" ∧
    (update_chat_message exDB 0 "hi").2 ≠ none := by
  decide

/-- C10 (amended): `update_chat_message` on an existing message returns the
updated document even when the requested content equals the current one,
because the update always stamps `updated_at` with the (fresh) current
time; so `editAndRegenerate` on an unchanged text proceeds rather than
aborting. NotFound arises only for an id matching no document. -/
theorem C10_update_same_content_amended (s : DB) (mid : Nat) (m : Message)
    (text : String) (hc : s.connected = true)
    (hnd : (s.chat.map Message.mid).Nodup) (hm : m ∈ s.chat) (hmid : m.mid = mid)
    (hupd : tsLt m.updated_at (some s.clock) = true) :
    ∃ u, (update_chat_message s mid text).2 = some u := by
  obtain ⟨u, hu⟩ := update_chat_message_some text hc hnd hm hmid hupd
  exact ⟨u, by rw [hu]⟩

theorem C10_update_same_content_amended_witness :
    ∃ u, (update_chat_message exDB 0 "hi").2 = some u :=
  C10_update_same_content_amended exDB 0 exU1 "hi"
    (by decide) (by decide) (by decide) (by decide) (by decide)

/-- C4 (code bug): the endpoints wrap their bodies in a blanket
`except Exception`, and `fastapi.HTTPException` derives from `Exception`,
so the `HTTPException(404)` each endpoint raises for an absent resource is
caught and re-surfaced as status 500: deleting a conversation with no
messages reports 500, and editing a nonexistent message id reports 500
(while indeed performing no mutation of the stored documents). -/
theorem C4_not_found_surfaces_500 :
    (delete_chat_history exDB "ghost").2 = 500 ∧
    (delete_chat_history exDB "ghost").1 = exDB ∧
    (edit_chat_message exCfgNoKey (.ok "r") exDB 99 (some "X") (some "c1")).2.status = 500 ∧
    (edit_chat_message exCfgNoKey (.ok "r") exDB 99 (some "X") (some "c1")).1.chat
      = exDB.chat := by
  decide

theorem save_menu_items_eq (s : DB) (items : List MenuItem) (hc : s.connected = true) :
    save_menu_items s items =
      ({ s with menu := items.enum.map (fun p => (s.nextId + p.1, p.2)),
                nextId := s.nextId + items.length }, true) := by
  unfold save_menu_items
  rw [hc]
  rfl

theorem get_menu_map_snd (s' : DB) (hc : s'.connected = true) :
    (get_menu s').map Prod.snd = (s'.menu.take 1000).map Prod.snd := by
  unfold get_menu get_all_menu_items
  rw [hc]
  simp only [Bool.not_true, Bool.false_eq_true, if_false, List.map_map]
  rfl

theorem get_menu_length (s' : DB) (hc : s'.connected = true) :
    (get_menu s').length = min 1000 s'.menu.length := by
  unfold get_menu get_all_menu_items
  rw [hc]
  simp only [Bool.not_true, Bool.false_eq_true, if_false, List.length_map,
    List.length_take]

theorem mkItems_length (n : Nat) : (mkItems n).length = n := by
  unfold mkItems
  rw [List.length_map, List.length_range]

theorem update_menu_fst (s : DB) (items : List MenuItem) (hc : s.connected = true) :
    (update_menu s items).1 =
      { s with menu := items.enum.map (fun p => (s.nextId + p.1, p.2)),
               nextId := s.nextId + items.length } := by
  unfold update_menu
  rw [save_menu_items_eq s items hc]
  rfl

/-- C8 (counterexample): posting 1001 menu items and reading the menu back
returns only 1000 of them — the read caps its cursor at 1000 documents, so
the round trip does not return exactly the posted list. -/
theorem C8_counterexample :
    (mkItems 1001).length = 1001 ∧
    (get_menu (update_menu exEmptyDB (mkItems 1001)).1).length = 1000 := by
  refine ⟨mkItems_length 1001, ?_⟩
  rw [update_menu_fst exEmptyDB (mkItems 1001) rfl,
    get_menu_length _ rfl]
  dsimp only
  rw [List.length_map, List.enum_length, mkItems_length]
  omega

/-- C8 (amended): `POST /menu` with items X fully replaces the stored menu
with exactly X (no merge with old items, whatever X's size), and `GET
/menu` then returns exactly X whenever X holds at most 1000 items — the
menu read caps its cursor at 1000 documents. -/
theorem C8_menu_round_trip_amended (s : DB) (items : List MenuItem)
    (hc : s.connected = true) :
    (update_menu s items).1.menu.map Prod.snd = items ∧
    (update_menu s items).2 = 200 ∧
    (items.length ≤ 1000 →
      (get_menu (update_menu s items).1).map Prod.snd = items) := by
  have hfst := update_menu_fst s items hc
  have hsnd : (update_menu s items).2 = 200 := by
    unfold update_menu
    rw [save_menu_items_eq s items hc]
    rfl
  have hstored : (update_menu s items).1.menu.map Prod.snd = items := by
    rw [hfst]
    dsimp only
    rw [List.map_map]
    exact List.enum_map_snd items
  refine ⟨hstored, hsnd, ?_⟩
  intro hlen
  rw [hfst,
    get_menu_map_snd ({ s with menu := items.enum.map (fun p => (s.nextId + p.1, p.2)), nextId := s.nextId + items.length }) hc]
  dsimp only
  rw [List.take_of_length_le (by rw [List.length_map, List.enum_length]; exact hlen)]
  rw [List.map_map]
  exact List.enum_map_snd items

theorem C8_menu_round_trip_amended_witness :
    (update_menu exDB exMenuItems).1.menu.map Prod.snd = exMenuItems ∧
    (update_menu exDB exMenuItems).2 = 200 ∧
    (exMenuItems.length ≤ 1000 →
      (get_menu (update_menu exDB exMenuItems).1).map Prod.snd = exMenuItems) :=
  C8_menu_round_trip_amended exDB exMenuItems (by decide)

theorem processDesign_at_most_one (b64 : String → Option (List Nat)) (now : Nat)
    (design : CakeDesign) :
    ¬((processDesign b64 now design).image_url.isSome = true ∧
      (processDesign b64 now design).image_data.isSome = true) := by
  unfold processDesign
  cases hu : design.image_url with
  | none => simp
  | some url =>
    dsimp only
    by_cases hs : (url != "" && url.startsWith "data:image") = true
    · rw [if_pos hs]
      cases hsp : splitOnceComma url with
      | none => simp
      | some enc =>
        dsimp only
        cases hb : b64 enc with
        | none => simp
        | some bytes => simp
    · rw [if_neg hs]
      simp

theorem save_cake_designs_eq (b64 : String → Option (List Nat)) (s : DB)
    (designs : List CakeDesign) (hc : s.connected = true) :
    save_cake_designs b64 s designs =
      ({ s with designs := designs.map (processDesign b64 s.clock),
                clock := s.clock + 1 }, true) := by
  unfold save_cake_designs
  rw [hc]
  rfl

/-- C9: after saving any list of cake designs, every persisted document
carries at most one image representation, and a design whose data URL
splits and decodes is stored with the decoded bytes and a cleared URL. -/
theorem C9_image_single_representation (s : DB) (designs : List CakeDesign)
    (b64 : String → Option (List Nat)) (hc : s.connected = true) :
    (∀ d ∈ (save_cake_designs b64 s designs).1.designs,
        ¬(d.image_url.isSome = true ∧ d.image_data.isSome = true)) ∧
    (∀ design ∈ designs, ∀ url encoded bytes,
        design.image_url = some url → url.startsWith "data:image" = true →
        splitOnceComma url = some encoded → b64 encoded = some bytes →
        (processDesign b64 s.clock design).image_data = some bytes ∧
        (processDesign b64 s.clock design).image_url = none ∧
        processDesign b64 s.clock design ∈ (save_cake_designs b64 s designs).1.designs) := by
  have hsave : (save_cake_designs b64 s designs).1 =
      { s with designs := designs.map (processDesign b64 s.clock),
               clock := s.clock + 1 } := by
    rw [save_cake_designs_eq b64 s designs hc]
  refine ⟨?_, ?_⟩
  · intro d hd
    rw [hsave] at hd
    simp only [List.mem_map] at hd
    obtain ⟨design, _, rfl⟩ := hd
    exact processDesign_at_most_one b64 s.clock design
  · intro design hdes url encoded bytes hurl hstart hsplit hb
    have hne : (url != "") = true := by
      by_cases h0 : url = ""
      · rw [h0] at hstart
        exact absurd hstart (by decide)
      · simpa using h0
    have hproc : processDesign b64 s.clock design =
        { design_id := design.design_id, name := design.name,
          description := design.description, image_url := none,
          image_data := some bytes, created_at := s.clock, updated_at := s.clock } := by
      unfold processDesign
      rw [hurl]
      dsimp only
      rw [if_pos (by simp only [Bool.and_eq_true]; exact ⟨hne, hstart⟩)]
      simp only [hsplit, hb]
    refine ⟨by rw [hproc], by rw [hproc], ?_⟩
    rw [hsave]
    exact List.mem_map_of_mem _ hdes

theorem C9_image_single_representation_witness :
    (∀ d ∈ (save_cake_designs exB64 exEmptyDB exDesigns).1.designs,
        ¬(d.image_url.isSome = true ∧ d.image_data.isSome = true)) ∧
    (∀ design ∈ exDesigns, ∀ url encoded bytes,
        design.image_url = some url → url.startsWith "data:image" = true →
        splitOnceComma url = some encoded → exB64 encoded = some bytes →
        (processDesign exB64 exEmptyDB.clock design).image_data = some bytes ∧
        (processDesign exB64 exEmptyDB.clock design).image_url = none ∧
        processDesign exB64 exEmptyDB.clock design
          ∈ (save_cake_designs exB64 exEmptyDB exDesigns).1.designs) :=
  C9_image_single_representation exEmptyDB exDesigns exB64 (by decide)

/-- C7 (amended): the history fetch returns the conversation's messages in
ascending created_at order, truncated to the first `limit`; whenever the
conversation holds at most `limit` messages it returns all of them, and it
returns the empty list (not an error) when none exist. -/
theorem C7_list_amended (s : DB) (c : String) (limit : Nat) (hc : s.connected = true) :
    TsSorted (get_chat_history s c limit) ∧
    ((convMsgs s c).length ≤ limit →
      List.Perm (get_chat_history s c limit) (convMsgs s c)) ∧
    (convMsgs s c = [] → get_chat_history s c limit = []) := by
  have hg : get_chat_history s c limit = (sortTs (convMsgs s c)).take limit := by
    unfold get_chat_history
    rw [hc]
    rfl
  refine ⟨?_, ?_, ?_⟩
  · rw [hg]
    exact List.Pairwise.sublist (List.take_sublist limit _) (tsSorted_sortTs _)
  · intro hlen
    rw [hg, List.take_of_length_le (by rw [length_sortTs]; exact hlen)]
    exact sortTs_perm _
  · intro hnil
    rw [hg, hnil]
    simp [sortTs]

theorem C7_list_amended_witness :
    TsSorted (get_chat_history exDB "c1" 10000) ∧
    ((convMsgs exDB "c1").length ≤ 10000 →
      List.Perm (get_chat_history exDB "c1" 10000) (convMsgs exDB "c1")) ∧
    (convMsgs exDB "c1" = [] → get_chat_history exDB "c1" 10000 = []) :=
  C7_list_amended exDB "c1" 10000 (by decide)

theorem mkMsgs_length (n : Nat) : (mkMsgs n).length = n := by
  unfold mkMsgs
  rw [List.length_map, List.length_range]

theorem mkMsgs_filter_big (n : Nat) :
    (mkMsgs n).filter (fun m => m.conversation_id == "big") = mkMsgs n := by
  unfold mkMsgs
  rw [List.filter_map]
  refine congrArg _ (List.filter_eq_self.2 ?_)
  intro a _
  rfl

theorem convMsgs_exBigDB : convMsgs exBigDB "big" = mkMsgs 10001 := by
  unfold convMsgs exBigDB
  dsimp only
  exact mkMsgs_filter_big 10001

theorem tsSorted_mkMsgs (n : Nat) : TsSorted (mkMsgs n) := by
  unfold TsSorted mkMsgs
  rw [List.pairwise_map]
  refine (List.pairwise_lt_range n).imp ?_
  intro a b hab
  simp only [tsLe, decide_eq_true_eq]
  omega

/-- C7 (counterexample): a conversation holding 10001 messages: the fetch
truncates at `limit=10000`, so the endpoint does not return all stored
messages. -/
theorem C7_counterexample :
    (convMsgs exBigDB "big").length = 10001 ∧
    (get_chat_history_endpoint exBigDB "big").length = 10000 := by
  have h1 : (convMsgs exBigDB "big").length = 10001 := by
    rw [convMsgs_exBigDB, mkMsgs_length]
  refine ⟨h1, ?_⟩
  have hg : get_chat_history_endpoint exBigDB "big" =
      (sortTs (convMsgs exBigDB "big")).take 10000 := by
    unfold get_chat_history_endpoint get_chat_history
    rw [show exBigDB.connected = true from rfl]
    simp only [Bool.not_true, Bool.false_eq_true, if_false]
  rw [hg, convMsgs_exBigDB, sortTs_eq_self (tsSorted_mkMsgs 10001),
    List.length_take, mkMsgs_length]
  omega

theorem chatEndpoint_eq_nokey (cfg : Config) (gen : GenOutcome) (s : DB)
    (msg c : String) (hcne : c ≠ "") (hk : pyTruthy cfg.ai_api_key = false) :
    chatEndpoint cfg gen s msg (some c) =
      ((save_chat_message (save_chat_message s c "user" msg none).1 c "bot" msg
          (some (notConfiguredText msg))).1,
        ⟨notConfiguredText msg, c⟩) := by
  unfold chatEndpoint
  rw [show pyTruthy (some c) = true from by simp [pyTruthy, hcne]]
  rw [hk]
  rfl

theorem chatEndpoint_eq_openai (cfg : Config) (gen : GenOutcome) (s : DB)
    (msg c : String) (hcne : c ≠ "") (hk : pyTruthy cfg.ai_api_key = true)
    (hoa : (strLower cfg.ai_provider == "openai") = true) :
    chatEndpoint cfg gen s msg (some c) =
      (match gen with
        | .ok text =>
          ((save_chat_message (save_chat_message s c "user" msg none).1 c "bot" msg
              (some text)).1, ⟨text, c⟩)
        | .exn e =>
          ((save_chat_message (save_chat_message s c "user" msg none).1 c "bot" msg
              (some (if containsSub e "model_not_found" || containsSub e "does not exist"
                then openaiModelErrorTextChat (resolveOpenAIModel cfg.openai_model)
                else "Error calling AI API: " ++ e))).1,
            ⟨if containsSub e "model_not_found" || containsSub e "does not exist"
                then openaiModelErrorTextChat (resolveOpenAIModel cfg.openai_model)
                else "Error calling AI API: " ++ e, c⟩)) := by
  unfold chatEndpoint
  rw [show pyTruthy (some c) = true from by simp [pyTruthy, hcne]]
  rw [hk, hoa]
  cases gen with
  | ok text => rfl
  | exn e => rfl

theorem chatEndpoint_eq_anthropic_missing (cfg : Config) (gen : GenOutcome) (s : DB)
    (msg c : String) (hcne : c ≠ "") (hk : pyTruthy cfg.ai_api_key = true)
    (hoa : (strLower cfg.ai_provider == "openai") = false)
    (han : (strLower cfg.ai_provider == "anthropic") = true)
    (hni : cfg.anthropicInstalled = false) :
    chatEndpoint cfg gen s msg (some c) =
      ((save_chat_message s c "user" msg none).1,
        ⟨"Anthropic package not installed. Run: pip install anthropic", c⟩) := by
  unfold chatEndpoint
  rw [show pyTruthy (some c) = true from by simp [pyTruthy, hcne]]
  rw [hk, hoa, han, hni]
  rfl

theorem chatEndpoint_eq_anthropic (cfg : Config) (gen : GenOutcome) (s : DB)
    (msg c : String) (hcne : c ≠ "") (hk : pyTruthy cfg.ai_api_key = true)
    (hoa : (strLower cfg.ai_provider == "openai") = false)
    (han : (strLower cfg.ai_provider == "anthropic") = true)
    (hin : cfg.anthropicInstalled = true) :
    chatEndpoint cfg gen s msg (some c) =
      (match gen with
        | .ok text =>
          ((save_chat_message (save_chat_message s c "user" msg none).1 c "bot" msg
              (some text)).1, ⟨text, c⟩)
        | .exn e =>
          ((save_chat_message (save_chat_message s c "user" msg none).1 c "bot" msg
              (some ("Error calling AI API: " ++ e))).1,
            ⟨"Error calling AI API: " ++ e, c⟩)) := by
  unfold chatEndpoint
  rw [show pyTruthy (some c) = true from by simp [pyTruthy, hcne]]
  rw [hk, hoa, han, hin]
  cases gen with
  | ok text => rfl
  | exn e => rfl

theorem chatEndpoint_eq_custom (cfg : Config) (gen : GenOutcome) (s : DB)
    (msg c : String) (hcne : c ≠ "") (hk : pyTruthy cfg.ai_api_key = true)
    (hoa : (strLower cfg.ai_provider == "openai") = false)
    (han : (strLower cfg.ai_provider == "anthropic") = false) :
    chatEndpoint cfg gen s msg (some c) =
      ((save_chat_message (save_chat_message s c "user" msg none).1 c "bot" msg
          (some (notImplementedText cfg.ai_provider))).1,
        ⟨notImplementedText cfg.ai_provider, c⟩) := by
  unfold chatEndpoint
  rw [show pyTruthy (some c) = true from by simp [pyTruthy, hcne]]
  rw [hk, hoa, han]
  rfl

/-- A turn whose final state is a user save followed by a bot save stores
exactly those two documents at the end of the conversation. -/
theorem turnPersistsBot_double_save (s : DB) (c msg msg2 resp : String)
    (hc : s.connected = true) :
    turnPersistsBot s
      (save_chat_message (save_chat_message s c "user" msg none).1 c "bot" msg2
        (some resp)).1 c resp := by
  have hc1 : (save_chat_message s c "user" msg none).1.connected = true := by
    rw [save_connected]
    exact hc
  refine ⟨chatDoc s c "user" msg none,
    chatDoc (save_chat_message s c "user" msg none).1 c "bot" msg2 (some resp),
    ?_, rfl, rfl, rfl⟩
  rw [convMsgs_save_self _ c "bot" msg2 (some resp) hc1,
    convMsgs_save_self s c "user" msg none hc, List.append_assoc]
  rfl

/-- C3: for each of the enumerated generation-failure kinds (provider call
raising — timeouts and provider errors arrive as exceptions —, credentials
not configured, unsupported provider name) the turn still completes, a bot
document carrying the descriptive fallback reply is persisted, and with no
credential the reply text contains the "not configured" indicator. -/
theorem C3_failure_fallback (cfg : Config) (s : DB) (c msg e : String)
    (hc : s.connected = true) (hcne : c ≠ "") :
    (pyTruthy cfg.ai_api_key = false →
      ∀ gen : GenOutcome,
        turnPersistsBot s (chatEndpoint cfg gen s msg (some c)).1 c
          (chatEndpoint cfg gen s msg (some c)).2.response ∧
        ∃ pre post : String, (chatEndpoint cfg gen s msg (some c)).2.response =
          pre ++ "not configured" ++ post) ∧
    (pyTruthy cfg.ai_api_key = true → (strLower cfg.ai_provider == "openai") = true →
      turnPersistsBot s (chatEndpoint cfg (.exn e) s msg (some c)).1 c
        (chatEndpoint cfg (.exn e) s msg (some c)).2.response) ∧
    (pyTruthy cfg.ai_api_key = true → (strLower cfg.ai_provider == "openai") = false →
      (strLower cfg.ai_provider == "anthropic") = true → cfg.anthropicInstalled = true →
      turnPersistsBot s (chatEndpoint cfg (.exn e) s msg (some c)).1 c
        (chatEndpoint cfg (.exn e) s msg (some c)).2.response) ∧
    (pyTruthy cfg.ai_api_key = true → (strLower cfg.ai_provider == "openai") = false →
      (strLower cfg.ai_provider == "anthropic") = false →
      ∀ gen : GenOutcome,
        turnPersistsBot s (chatEndpoint cfg gen s msg (some c)).1 c
          (chatEndpoint cfg gen s msg (some c)).2.response) := by
  refine ⟨?_, ?_, ?_, ?_⟩
  · intro hk gen
    rw [chatEndpoint_eq_nokey cfg gen s msg c hcne hk]
    constructor
    · exact turnPersistsBot_double_save s c msg msg (notConfiguredText msg) hc
    · refine ⟨"I received your message: '" ++ msg ++ "'. ⚠️ AI API key ",
        ". Please add your API key to use the AI agent.", ?_⟩
      show notConfiguredText msg = _
      unfold notConfiguredText
      simp only [String.append_assoc]
      rw [show ("'. ⚠️ AI API key " ++ ("not configured" ++
        ". Please add your API key to use the AI agent.") : String) =
        "'. ⚠️ AI API key not configured. Please add your API key to use the AI agent."
        from by decide]
  · intro hk hoa
    rw [chatEndpoint_eq_openai cfg (.exn e) s msg c hcne hk hoa]
    exact turnPersistsBot_double_save s c msg msg _ hc
  · intro hk hoa han hin
    rw [chatEndpoint_eq_anthropic cfg (.exn e) s msg c hcne hk hoa han hin]
    exact turnPersistsBot_double_save s c msg msg _ hc
  · intro hk hoa han gen
    rw [chatEndpoint_eq_custom cfg gen s msg c hcne hk hoa han]
    exact turnPersistsBot_double_save s c msg msg _ hc

theorem C3_failure_fallback_witness :
    (pyTruthy exCfgNoKey.ai_api_key = false →
      ∀ gen : GenOutcome,
        turnPersistsBot exEmptyDB (chatEndpoint exCfgNoKey gen exEmptyDB "order cake" (some "c9")).1 "c9"
          (chatEndpoint exCfgNoKey gen exEmptyDB "order cake" (some "c9")).2.response ∧
        ∃ pre post : String,
          (chatEndpoint exCfgNoKey gen exEmptyDB "order cake" (some "c9")).2.response =
            pre ++ "not configured" ++ post) ∧
    (pyTruthy exCfgNoKey.ai_api_key = true →
      (strLower exCfgNoKey.ai_provider == "openai") = true →
      turnPersistsBot exEmptyDB
        (chatEndpoint exCfgNoKey (.exn "boom") exEmptyDB "order cake" (some "c9")).1 "c9"
        (chatEndpoint exCfgNoKey (.exn "boom") exEmptyDB "order cake" (some "c9")).2.response) ∧
    (pyTruthy exCfgNoKey.ai_api_key = true →
      (strLower exCfgNoKey.ai_provider == "openai") = false →
      (strLower exCfgNoKey.ai_provider == "anthropic") = true →
      exCfgNoKey.anthropicInstalled = true →
      turnPersistsBot exEmptyDB
        (chatEndpoint exCfgNoKey (.exn "boom") exEmptyDB "order cake" (some "c9")).1 "c9"
        (chatEndpoint exCfgNoKey (.exn "boom") exEmptyDB "order cake" (some "c9")).2.response) ∧
    (pyTruthy exCfgNoKey.ai_api_key = true →
      (strLower exCfgNoKey.ai_provider == "openai") = false →
      (strLower exCfgNoKey.ai_provider == "anthropic") = false →
      ∀ gen : GenOutcome,
        turnPersistsBot exEmptyDB (chatEndpoint exCfgNoKey gen exEmptyDB "order cake" (some "c9")).1 "c9"
          (chatEndpoint exCfgNoKey gen exEmptyDB "order cake" (some "c9")).2.response) :=
  C3_failure_fallback exCfgNoKey exEmptyDB "c9" "order cake" "boom"
    (by decide) (by decide)

theorem convMsgs_double_save (s : DB) (c msg msg2 resp : String) (hc : s.connected = true) :
    convMsgs (save_chat_message (save_chat_message s c "user" msg none).1 c "bot" msg2
        (some resp)).1 c =
      convMsgs s c ++ [chatDoc s c "user" msg none,
        chatDoc (save_chat_message s c "user" msg none).1 c "bot" msg2 (some resp)] := by
  have hc1 : (save_chat_message s c "user" msg none).1.connected = true := by
    rw [save_connected]
    exact hc
  rw [convMsgs_save_self _ c "bot" msg2 (some resp) hc1,
    convMsgs_save_self s c "user" msg none hc, List.append_assoc]
  rfl

/-- Under every configuration except the anthropic-package-missing branch,
one chat call ends in the user save followed by a bot save. -/
theorem chatEndpoint_fst_spec (cfg : Config) (gen : GenOutcome) (s : DB)
    (msg c : String) (hcne : c ≠ "")
    (hnb : ¬(pyTruthy cfg.ai_api_key = true ∧
      (strLower cfg.ai_provider == "anthropic") = true ∧
      cfg.anthropicInstalled = false)) :
    ∃ resp, (chatEndpoint cfg gen s msg (some c)).1 =
      (save_chat_message (save_chat_message s c "user" msg none).1 c "bot" msg
        (some resp)).1 := by
  by_cases hk : pyTruthy cfg.ai_api_key = true
  · by_cases hoa : (strLower cfg.ai_provider == "openai") = true
    · cases gen with
      | ok text =>
        exact ⟨text, by rw [chatEndpoint_eq_openai cfg (.ok text) s msg c hcne hk hoa]⟩
      | exn e =>
        exact ⟨(if containsSub e "model_not_found" || containsSub e "does not exist"
            then openaiModelErrorTextChat (resolveOpenAIModel cfg.openai_model)
            else "Error calling AI API: " ++ e), by
          rw [chatEndpoint_eq_openai cfg (.exn e) s msg c hcne hk hoa]⟩
    · have hoa' : (strLower cfg.ai_provider == "openai") = false := by simpa using hoa
      by_cases han : (strLower cfg.ai_provider == "anthropic") = true
      · have hin : cfg.anthropicInstalled = true := by
          by_cases h : cfg.anthropicInstalled = true
          · exact h
          · exact absurd ⟨hk, han, by simpa using h⟩ hnb
        cases gen with
        | ok text =>
          exact ⟨text, by
            rw [chatEndpoint_eq_anthropic cfg (.ok text) s msg c hcne hk hoa' han hin]⟩
        | exn e =>
          exact ⟨"Error calling AI API: " ++ e, by
            rw [chatEndpoint_eq_anthropic cfg (.exn e) s msg c hcne hk hoa' han hin]⟩
      · have han' : (strLower cfg.ai_provider == "anthropic") = false := by simpa using han
        exact ⟨notImplementedText cfg.ai_provider, by
          rw [chatEndpoint_eq_custom cfg gen s msg c hcne hk hoa' han']⟩
  · have hk' : pyTruthy cfg.ai_api_key = false := by simpa using hk
    exact ⟨notConfiguredText msg, by
      rw [chatEndpoint_eq_nokey cfg gen s msg c hcne hk']⟩

theorem runChats_invariant (cfg : Config) (c : String) (hcne : c ≠ "")
    (hnb : ¬(pyTruthy cfg.ai_api_key = true ∧
      (strLower cfg.ai_provider == "anthropic") = true ∧
      cfg.anthropicInstalled = false)) :
    ∀ (L : List (String × GenOutcome)) (s : DB), WF s → s.connected = true →
      WF (runChats cfg c s L) ∧ (runChats cfg c s L).connected = true ∧
      (convMsgs (runChats cfg c s L) c).length = (convMsgs s c).length + 2 * L.length ∧
      (convMsgs (runChats cfg c s L) c).countP (fun m => m.role == "user") =
        (convMsgs s c).countP (fun m => m.role == "user") + L.length ∧
      (convMsgs (runChats cfg c s L) c).countP (fun m => m.role == "bot") =
        (convMsgs s c).countP (fun m => m.role == "bot") + L.length := by
  intro L
  induction L with
  | nil =>
    intro s hWF hc
    exact ⟨hWF, hc, by simp [runChats], by simp [runChats], by simp [runChats]⟩
  | cons p rest ih =>
    intro s hWF hc
    obtain ⟨msg, gen⟩ := p
    obtain ⟨resp, hstep⟩ := chatEndpoint_fst_spec cfg gen s msg c hcne hnb
    have hrun : runChats cfg c s ((msg, gen) :: rest) =
        runChats cfg c (chatEndpoint cfg gen s msg (some c)).1 rest := rfl
    have hWF' : WF (chatEndpoint cfg gen s msg (some c)).1 := by
      rw [hstep]
      exact WF_save (WF_save hWF c "user" msg none) c "bot" msg (some resp)
    have hc' : (chatEndpoint cfg gen s msg (some c)).1.connected = true := by
      rw [hstep, save_connected, save_connected]
      exact hc
    have hconv : convMsgs (chatEndpoint cfg gen s msg (some c)).1 c =
        convMsgs s c ++ [chatDoc s c "user" msg none,
          chatDoc (save_chat_message s c "user" msg none).1 c "bot" msg (some resp)] := by
      rw [hstep]
      exact convMsgs_double_save s c msg msg resp hc
    obtain ⟨hWF2, hc2, hlen, hu, hb⟩ := ih (chatEndpoint cfg gen s msg (some c)).1 hWF' hc'
    rw [hrun]
    refine ⟨hWF2, hc2, ?_, ?_, ?_⟩
    · rw [hlen, hconv, List.length_append]
      simp only [List.length_cons, List.length_nil, List.length_cons]
      omega
    · rw [hu, hconv, List.countP_append]
      simp [List.countP_cons, chatDoc]
      omega
    · rw [hb, hconv, List.countP_append]
      simp [List.countP_cons, chatDoc]
      omega

/-- C2 (amended): starting from an empty conversation, a sequence of n chat
calls on one id leaves exactly 2n stored entries — one user and one bot per
call — and the fetched history lists them in strictly increasing timestamp
order, provided the configuration does not take the
anthropic-package-missing early return and the fetch limit is at least 2n
(the endpoint passes 10000). -/
theorem C2_send_message_amended (cfg : Config) (c : String)
    (L : List (String × GenOutcome)) (s : DB) (limit : Nat)
    (hWF : WF s) (hc : s.connected = true) (hcne : c ≠ "")
    (hstart : convMsgs s c = [])
    (hnb : ¬(pyTruthy cfg.ai_api_key = true ∧
      (strLower cfg.ai_provider == "anthropic") = true ∧
      cfg.anthropicInstalled = false))
    (hlim : 2 * L.length ≤ limit) :
    (get_chat_history (runChats cfg c s L) c limit).length = 2 * L.length ∧
    TsStrict (get_chat_history (runChats cfg c s L) c limit) ∧
    (get_chat_history (runChats cfg c s L) c limit).countP
      (fun m => m.role == "user") = L.length ∧
    (get_chat_history (runChats cfg c s L) c limit).countP
      (fun m => m.role == "bot") = L.length := by
  obtain ⟨hWF', hc', hlen, hu, hb⟩ := runChats_invariant cfg c hcne hnb L s hWF hc
  rw [hstart] at hlen hu hb
  simp only [List.length_nil, List.countP_nil, Nat.zero_add] at hlen hu hb
  have hstrict : TsStrict (convMsgs (runChats cfg c s L) c) :=
    List.Pairwise.sublist (List.filter_sublist _) hWF'.strict
  have hget : get_chat_history (runChats cfg c s L) c limit =
      convMsgs (runChats cfg c s L) c := by
    unfold get_chat_history
    rw [hc']
    simp only [Bool.not_true, Bool.false_eq_true, if_false]
    rw [sortTs_eq_self hstrict.tsSorted]
    exact List.take_of_length_le (by omega)
  rw [hget]
  exact ⟨by omega, hstrict, hu, hb⟩

theorem C2_send_message_amended_witness :
    (get_chat_history
        (runChats exCfgNoKey "c1" exEmptyDB [("a", .ok "r"), ("b", .exn "x")])
        "c1" 10000).length = 2 * 2 ∧
    TsStrict (get_chat_history
        (runChats exCfgNoKey "c1" exEmptyDB [("a", .ok "r"), ("b", .exn "x")])
        "c1" 10000) ∧
    (get_chat_history
        (runChats exCfgNoKey "c1" exEmptyDB [("a", .ok "r"), ("b", .exn "x")])
        "c1" 10000).countP (fun m => m.role == "user") = 2 ∧
    (get_chat_history
        (runChats exCfgNoKey "c1" exEmptyDB [("a", .ok "r"), ("b", .exn "x")])
        "c1" 10000).countP (fun m => m.role == "bot") = 2 :=
  C2_send_message_amended exCfgNoKey "c1" [("a", .ok "r"), ("b", .exn "x")] exEmptyDB 10000
    ⟨by decide, by decide, by decide, by decide, by decide⟩
    (by decide) (by decide) (by decide) (by decide) (by decide)

/-- C2 (counterexample): with provider `anthropic` selected, a credential
present, and the anthropic package missing, the chat handler returns before
saving a bot document, so one call leaves one stored entry, not two. -/
theorem C2_counterexample :
    ¬((get_chat_history (runChats exCfgAnthropicMissing "c1" exEmptyDB [("hi", .ok "r")])
        "c1" 10000).length = 2 * 1) := by
  decide
